import Mathlib

/-!
Verification of the workflow-dispatch core of `gh-dispatch`
(`internal/workflow/workflow.go`): trigger-predicate evaluation,
input-schema extraction, dispatch-request construction/validation,
request execution, and the workflow-catalog scan.

The Go values of type `any` produced by `yaml.Unmarshal` are embedded as
the inductive `YamlVal`; Go maps (`map[string]any`, `map[string]Input`,
`map[string]string`) are embedded as association lists with distinct
keys (a Go map can never hold a duplicate key), looked up with
`List.lookup`; Go's `nil` map / `nil` slice results are embedded as
`Option`-`none`; Go's `(value, error)` returns are embedded as `Except`
or as a pair with an `Option String` error component.
-/

/-- A dynamically-shaped YAML value, as produced by `yaml.Unmarshal` into a
Go `any`: a string, a boolean, an integer scalar, null (also the value of
an absent field), a sequence (`[]any`), or a string-keyed mapping
(`map[string]any`, embedded as an association list). -/
inductive YamlVal where
  | str : String → YamlVal
  | bool : Bool → YamlVal
  | int : Int → YamlVal
  | null : YamlVal
  | seq : List YamlVal → YamlVal
  | map : List (String × YamlVal) → YamlVal

/-- `Input` mirrors the Go struct `workflow.Input`: one `workflow_dispatch`
input declaration. `Type'` embeds the Go field `Type`. -/
structure Input where
  Description : String
  Required : Bool
  Default : String
  Type' : String
  Options : List String

/-- `workflowYAML` mirrors the Go struct of the same name: the parse target
for one workflow file (`Name` field plus the untyped `On` trigger field;
an absent `on:` key leaves `On` as the nil interface, embedded `.null`). -/
structure WorkflowYAML where
  Name : String
  On : YamlVal

/-- `hasWorkflowDispatch` embeds the Go function of the same name: the
type switch on the runtime shape of the `on:` declaration. -/
def hasWorkflowDispatch (onVal : YamlVal) : Bool :=
  match onVal with
  | .str v => v == "workflow_dispatch"
  | .seq items =>
      items.any fun item =>
        match item with
        | .str s => s == "workflow_dispatch"
        | _ => false
  | .map m => (m.lookup "workflow_dispatch").isSome
  | _ => false

/-- The body of the `for key, val := range inputsMap` loop of the Go
function `extractInputs`: a configuration value that is not a mapping is
skipped (`continue`, embedded `none`); otherwise each field is read with
a type assertion that degrades to the Go zero value when the key is
absent or its value has the wrong dynamic type. -/
def parseInputConfig (val : YamlVal) : Option Input :=
  match val with
  | .map im =>
      some
        { Description :=
            match im.lookup "description" with
            | some (.str s) => s
            | _ => ""
          Required :=
            match im.lookup "required" with
            | some (.bool b) => b
            | _ => false
          Default :=
            match im.lookup "default" with
            | some (.str s) => s
            | _ => ""
          Type' :=
            match im.lookup "type" with
            | some (.str s) => s
            | _ => ""
          Options :=
            match im.lookup "options" with
            | some (.seq opts) =>
                opts.filterMap fun opt =>
                  match opt with
                  | .str s => some s
                  | _ => none
            | _ => [] }
  | _ => none

/-- `extractInputs` embeds the Go function of the same name. Every failed
type assertion or missing key returns Go's `nil` map (embedded `none`),
as does an empty result (`if len(inputs) == 0`). -/
def extractInputs (onVal : YamlVal) : Option (List (String × Input)) :=
  match onVal with
  | .map m =>
      match m.lookup "workflow_dispatch" with
      | none => none
      | some wd =>
          match wd with
          | .map wdMap =>
              match wdMap.lookup "inputs" with
              | none => none
              | some inputsRaw =>
                  match inputsRaw with
                  | .map inputsMap =>
                      let inputs := inputsMap.filterMap fun kv =>
                        (parseInputConfig kv.2).map fun inp => (kv.1, inp)
                      if inputs.isEmpty then none else some inputs
                  | _ => none
          | _ => none
  | _ => none

theorem lookup_isSome_iff_exists_mem {α : Type} (k : String)
    (l : List (String × α)) :
    (l.lookup k).isSome ↔ ∃ v, (k, v) ∈ l := by
  induction l with
  | nil => simp [List.lookup]
  | cons p t ih =>
      obtain ⟨a, b⟩ := p
      by_cases h : k = a
      · subst h
        simp [List.lookup]
      · have hne : (k == a) = false := by
          simp [h]
        simp only [List.lookup, hne]
        rw [ih]
        constructor
        · rintro ⟨v, hv⟩
          exact ⟨v, List.mem_cons_of_mem _ hv⟩
        · rintro ⟨v, hv⟩
          rcases List.mem_cons.mp hv with heq | hmem
          · cases heq
            exact absurd rfl h
          · exact ⟨v, hmem⟩

/-- C1: `hasWorkflowDispatch` classifies purely by runtime shape: a string
declaration is supported iff it equals `"workflow_dispatch"`; a sequence
is supported iff some element is the string `"workflow_dispatch"`; a
mapping is supported iff the key `"workflow_dispatch"` is present,
whatever its value (even null); every other shape (boolean, integer,
null / absent declaration) is not supported. The function is total, so it
never fails. -/
theorem hasWorkflowDispatch_classification :
    (∀ s : String,
        hasWorkflowDispatch (.str s) = true ↔ s = "workflow_dispatch") ∧
    (∀ items : List YamlVal,
        hasWorkflowDispatch (.seq items) = true ↔
          YamlVal.str "workflow_dispatch" ∈ items) ∧
    (∀ m : List (String × YamlVal),
        hasWorkflowDispatch (.map m) = true ↔
          ∃ v, ("workflow_dispatch", v) ∈ m) ∧
    (∀ b : Bool, hasWorkflowDispatch (.bool b) = false) ∧
    (∀ i : Int, hasWorkflowDispatch (.int i) = false) ∧
    hasWorkflowDispatch .null = false := by
  refine ⟨?_, ?_, ?_, ?_, ?_, ?_⟩
  · intro s
    simp [hasWorkflowDispatch]
  · intro items
    simp only [hasWorkflowDispatch, List.any_eq_true]
    constructor
    · rintro ⟨item, hmem, hitem⟩
      cases item with
      | str s =>
          have : s = "workflow_dispatch" := by
            simpa using hitem
          subst this
          exact hmem
      | bool b => simp at hitem
      | int i => simp at hitem
      | null => simp at hitem
      | seq l => simp at hitem
      | map l => simp at hitem
    · intro hmem
      exact ⟨.str "workflow_dispatch", hmem, by simp⟩
  · intro m
    rw [show hasWorkflowDispatch (.map m) =
        (m.lookup "workflow_dispatch").isSome from rfl]
    exact lookup_isSome_iff_exists_mem _ m
  · intro b
    rfl
  · intro i
    rfl
  · rfl

theorem hasWorkflowDispatch_classification_witness :
    hasWorkflowDispatch (.seq [.str "push", .str "workflow_dispatch"]) =
      true :=
  (hasWorkflowDispatch_classification.2.1
      [.str "push", .str "workflow_dispatch"]).mpr
    (List.mem_cons_of_mem _ (List.mem_cons_self _ _))

/-- Shape test used to phrase which input configurations survive the
`range inputsMap` loop of `extractInputs`: exactly the mapping-shaped
ones (a non-mapping value hits the loop's `continue`). -/
def isMapping (v : YamlVal) : Bool :=
  match v with
  | .map _ => true
  | _ => false

theorem parseInputConfig_isSome (v : YamlVal) :
    (parseInputConfig v).isSome = isMapping v := by
  cases v <;> rfl

theorem length_filterMap_count {α β : Type} (f : α → Option β)
    (l : List α) :
    (l.filterMap f).length = l.countP fun a => (f a).isSome := by
  induction l with
  | nil => rfl
  | cons a t ih =>
      cases h : f a <;>
        simp [List.filterMap_cons, h, List.countP_cons, ih]

/-- The trigger declaration used to refute C2 as stated: a
`workflow_dispatch` mapping whose `inputs` mapping has two entries, one
with a mapping-shaped configuration and one whose configuration is a bare
string. -/
def mixedInputsMap : List (String × YamlVal) :=
  [("env", .map []), ("bad", .str "not a mapping")]

/-- The full `on:` declaration wrapping `mixedInputsMap`. -/
def mixedTrigger : YamlVal :=
  .map [("workflow_dispatch", .map [("inputs", .map mixedInputsMap)])]

/-- C2, counterexample: the `inputs` mapping of `mixedTrigger` has size
N = 2, yet `extractInputs` returns a schema with 1 entry, not 2 — the
entry whose configuration is not a mapping is dropped by the loop's
`continue`, contradicting the claim that each of the N entries survives
with malformed fields degraded to zero values. -/
theorem extractInputs_drops_nonmapping_config :
    mixedInputsMap.length = 2 ∧
    (extractInputs mixedTrigger).map List.length = some 1 :=
  ⟨rfl, rfl⟩

theorem extractInputs_unfold (inputsMap : List (String × YamlVal)) :
    extractInputs
        (.map [("workflow_dispatch", .map [("inputs", .map inputsMap)])])
      = (if (inputsMap.filterMap fun kv =>
              (parseInputConfig kv.2).map fun inp => (kv.1, inp)).isEmpty
         then none
         else some (inputsMap.filterMap fun kv =>
              (parseInputConfig kv.2).map fun inp => (kv.1, inp))) :=
  rfl

/-- C2, amended: for a mapping trigger declaration whose
`workflow_dispatch` value carries an `inputs` mapping, the extracted
schema has exactly one entry per input whose configuration is itself a
mapping (each obtained by `parseInputConfig`, which degrades absent or
ill-typed `description`/`required`/`default`/`type`/`options` fields to
their zero values and never drops a mapping-shaped configuration);
inputs whose configuration is not a mapping are dropped, and when no
entry remains — no input configuration is a mapping — the extraction
returns Go's nil map (`none`). -/
theorem extractInputs_schema_size
    (inputsMap : List (String × YamlVal)) :
    (∀ v, isMapping v = true → (parseInputConfig v).isSome = true) ∧
    ((inputsMap.countP fun kv => isMapping kv.2) = 0 →
      extractInputs
          (.map [("workflow_dispatch", .map [("inputs", .map inputsMap)])])
        = none) ∧
    (0 < (inputsMap.countP fun kv => isMapping kv.2) →
      ∃ schema,
        extractInputs
            (.map [("workflow_dispatch",
              .map [("inputs", .map inputsMap)])])
          = some schema ∧
        schema.length = inputsMap.countP (fun kv => isMapping kv.2) ∧
        ∀ kv ∈ schema, ∃ v, (kv.1, v) ∈ inputsMap ∧
          parseInputConfig v = some kv.2) := by
  have hcount : (inputsMap.filterMap fun kv =>
      (parseInputConfig kv.2).map fun inp => (kv.1, inp)).length
      = inputsMap.countP fun kv => isMapping kv.2 := by
    rw [length_filterMap_count]
    apply List.countP_congr
    intro kv _
    cases hpc : parseInputConfig kv.2 <;>
      simp [← parseInputConfig_isSome, hpc]
  refine ⟨?_, ?_, ?_⟩
  · intro v hv
    rw [parseInputConfig_isSome]
    exact hv
  · intro h0
    have hnil : (inputsMap.filterMap fun kv =>
        (parseInputConfig kv.2).map fun inp => (kv.1, inp)) = [] := by
      rw [← List.length_eq_zero, hcount]
      exact h0
    rw [extractInputs_unfold, hnil]
    rfl
  · intro h
    have hne : (inputsMap.filterMap fun kv =>
        (parseInputConfig kv.2).map fun inp => (kv.1, inp)).isEmpty
        = false := by
      rw [List.isEmpty_eq_false_iff_exists_mem]
      have hlen : 0 < (inputsMap.filterMap fun kv =>
          (parseInputConfig kv.2).map fun inp => (kv.1, inp)).length := by
        rw [hcount]
        exact h
      exact List.exists_mem_of_length_pos hlen
    refine ⟨_, ?_, hcount, ?_⟩
    · rw [extractInputs_unfold, hne]
      simp
    · intro kv hkv
      rcases List.mem_filterMap.mp hkv with ⟨a, hamem, ha⟩
      rcases Option.map_eq_some'.mp ha with ⟨inp, hinp, heq⟩
      refine ⟨a.2, ?_, ?_⟩
      · have : (kv.1, a.2) = a := by
          rw [← heq]
        rw [this]
        exact hamem
      · rw [hinp, ← heq]

/-- Witness for the amended C2: an `inputs` mapping whose only
configuration is not a mapping extracts to the nil schema, and one with
a single mapping-shaped configuration extracts to the one-entry
schema. -/
theorem extractInputs_schema_size_witness :
    extractInputs
        (.map [("workflow_dispatch", .map [("inputs",
          .map [("bad", YamlVal.str "not a mapping either")])])])
      = none ∧
    ∃ schema,
      extractInputs
          (.map [("workflow_dispatch", .map [("inputs",
            .map [("version", YamlVal.map [("required", .bool true),
                                           ("default", .str "1.0.0")])])])])
        = some schema ∧
      schema.length = List.countP (fun kv => isMapping kv.2)
          [("version", YamlVal.map [("required", .bool true),
                                    ("default", .str "1.0.0")])] ∧
      ∀ kv ∈ schema, ∃ v,
        (kv.1, v) ∈ [("version", YamlVal.map [("required", .bool true),
                                              ("default", .str "1.0.0")])] ∧
        parseInputConfig v = some kv.2 :=
  ⟨(extractInputs_schema_size
      [("bad", YamlVal.str "not a mapping either")]).2.1 (by decide),
   (extractInputs_schema_size
      [("version", YamlVal.map [("required", .bool true),
                                ("default", .str "1.0.0")])]).2.2
     (by decide)⟩

def hexDigit (n : Nat) : Char :=
  if n < 10 then Char.ofNat (48 + n) else Char.ofNat (87 + n)

/-- Models the string escaping of Go `encoding/json` (with `json.Marshal`'s
default HTML escaping): backslash, double quote, newline, carriage
return and tab get two-character escapes, other control characters and
`<` `>` `&` become `\u00XX`, and U+2028/U+2029 become `\u202X`. -/
def jsonEscapeChar (c : Char) : String :=
  if c = '\\' then "\\\\"
  else if c = '"' then "\\\""
  else if c = '\n' then "\\n"
  else if c = '\r' then "\\r"
  else if c = '\t' then "\\t"
  else if c = '<' ∨ c = '>' ∨ c = '&' ∨ c.toNat < 0x20 then
    "\\u00" ++ String.mk [hexDigit (c.toNat / 16), hexDigit (c.toNat % 16)]
  else if c.toNat = 0x2028 ∨ c.toNat = 0x2029 then
    "\\u202" ++ String.mk [hexDigit (c.toNat % 16)]
  else String.singleton c

/-- A Go string as serialized by `encoding/json`, surrounding quotes
included. -/
def jsonQuote (s : String) : String :=
  "\"" ++ String.join (s.toList.map jsonEscapeChar) ++ "\""

/-- Insertion into a key-sorted association list. Together with
`sortByKey` this models the order in which `encoding/json` serializes a
Go map: keys in sorted order. -/
def insertByKey {α : Type} (p : String × α) :
    List (String × α) → List (String × α)
  | [] => [p]
  | q :: qs => if p.1 ≤ q.1 then p :: q :: qs else q :: insertByKey p qs

/-- Sort an association list by key (insertion sort), modelling the
key-sorted serialization order of `encoding/json` for Go maps. -/
def sortByKey {α : Type} : List (String × α) → List (String × α)
  | [] => []
  | p :: ps => insertByKey p (sortByKey ps)

/-- The dynamic values held by the payload `map[string]any` that
`createDispatchRequest` builds: the `"ref"` string and, optionally, the
`"inputs"` map of strings. -/
inductive JsonVal where
  | str : String → JsonVal
  | strMap : List (String × String) → JsonVal

/-- `json.Marshal` on one payload value; a nested Go map is serialized
with its keys in sorted order. -/
def marshalVal (v : JsonVal) : String :=
  match v with
  | .str s => jsonQuote s
  | .strMap m =>
      "\x7b" ++ String.intercalate ","
          ((sortByKey m).map fun kv => jsonQuote kv.1 ++ ":" ++ jsonQuote kv.2)
        ++ "\x7d"

/-- `json.Marshal` on the payload map itself: keys in sorted order, each
entry serialized as `"key":value`. -/
def marshalObj (kvs : List (String × JsonVal)) : String :=
  "\x7b" ++ String.intercalate ","
      ((sortByKey kvs).map fun kv => jsonQuote kv.1 ++ ":" ++ marshalVal kv.2)
    ++ "\x7d"

/-- `DispatchParams` mirrors the Go struct of the same name; the
`map[string]string` field `Inputs` is embedded as an association list
with distinct keys. -/
structure DispatchParams where
  Owner : String
  Repo : String
  WorkflowFile : String
  Ref : String
  Inputs : List (String × String)

/-- The payload map built by `createDispatchRequest` before marshalling:
`"ref"` always, `"inputs"` exactly when `len(params.Inputs) > 0`. -/
def dispatchPayload (params : DispatchParams) : List (String × JsonVal) :=
  if params.Inputs.length > 0 then
    [("ref", .str params.Ref), ("inputs", .strMap params.Inputs)]
  else
    [("ref", .str params.Ref)]

/-- `createDispatchRequest` embeds the Go function of the same name: the
three validation checks in order, then the `fmt.Sprintf` endpoint and the
`json.Marshal`ed payload. (`json.Marshal` cannot fail on this payload
shape — maps of strings — so the Go marshal-error branch is unreachable
and the embedding is total.) -/
def createDispatchRequest (params : DispatchParams) :
    Except String (String × String) :=
  if params.Owner = "" ∨ params.Repo = "" then
    .error "owner and repo are required"
  else if params.WorkflowFile = "" then
    .error "workflow file is required"
  else if params.Ref = "" then
    .error "ref (branch) is required"
  else
    .ok ("repos/" ++ params.Owner ++ "/" ++ params.Repo ++
           "/actions/workflows/" ++ params.WorkflowFile ++ "/dispatches",
         marshalObj (dispatchPayload params))

/-- C3: `createDispatchRequest` validates in a fixed order with exact
messages — empty `Owner` or `Repo` fails with "owner and repo are
required"; otherwise an empty `WorkflowFile` fails with "workflow file is
required"; otherwise an empty `Ref` fails with "ref (branch) is
required". In particular a value missing both owner and workflow file
reports the owner/repo message. -/
theorem createDispatchRequest_validation_order (p : DispatchParams) :
    (p.Owner = "" ∨ p.Repo = "" →
      createDispatchRequest p = .error "owner and repo are required") ∧
    (p.Owner ≠ "" → p.Repo ≠ "" → p.WorkflowFile = "" →
      createDispatchRequest p = .error "workflow file is required") ∧
    (p.Owner ≠ "" → p.Repo ≠ "" → p.WorkflowFile ≠ "" → p.Ref = "" →
      createDispatchRequest p = .error "ref (branch) is required") := by
  refine ⟨?_, ?_, ?_⟩
  · intro h
    simp [createDispatchRequest, h]
  · intro ho hr hw
    simp [createDispatchRequest, ho, hr, hw]
  · intro ho hr hw hf
    simp [createDispatchRequest, ho, hr, hw, hf]

/-- Witness for C3: a value missing both owner and workflow file reports
the owner/repo message, not the workflow-file message. -/
theorem createDispatchRequest_validation_order_witness :
    createDispatchRequest ⟨"", "r", "", "main", []⟩ =
      .error "owner and repo are required" :=
  (createDispatchRequest_validation_order ⟨"", "r", "", "main", []⟩).1
    (Or.inl rfl)

/-- C4: with all four required fields non-empty, `createDispatchRequest`
succeeds with the endpoint template substituted verbatim (plain string
concatenation, no escaping) and the marshalled payload map; that payload
map carries `"ref"` mapped to `Ref`, carries `"inputs"` (mapped to the
`Inputs` mapping) exactly when `Inputs` is non-empty, and omits the
`"inputs"` key entirely when `Inputs` is empty. -/
theorem createDispatchRequest_success (p : DispatchParams)
    (ho : p.Owner ≠ "") (hr : p.Repo ≠ "") (hw : p.WorkflowFile ≠ "")
    (hf : p.Ref ≠ "") :
    createDispatchRequest p =
      .ok ("repos/" ++ p.Owner ++ "/" ++ p.Repo ++ "/actions/workflows/" ++
             p.WorkflowFile ++ "/dispatches",
           marshalObj (dispatchPayload p)) ∧
    ("ref", JsonVal.str p.Ref) ∈ dispatchPayload p ∧
    (((dispatchPayload p).lookup "inputs").isSome ↔ p.Inputs ≠ []) ∧
    (p.Inputs = [] → dispatchPayload p = [("ref", .str p.Ref)]) ∧
    (p.Inputs ≠ [] →
      (dispatchPayload p).lookup "inputs" = some (.strMap p.Inputs)) := by
  refine ⟨?_, ?_, ?_, ?_, ?_⟩
  · simp [createDispatchRequest, ho, hr, hw, hf]
  · cases hin : p.Inputs <;> simp [dispatchPayload, hin]
  · cases hin : p.Inputs <;> simp [dispatchPayload, hin, List.lookup]
  · intro hin
    simp [dispatchPayload, hin]
  · intro hin
    cases hin' : p.Inputs with
    | nil => exact absurd hin' hin
    | cons a l => simp [dispatchPayload, hin', List.lookup]

/-- Witness for C4 at a concrete parameter value with empty inputs. -/
theorem createDispatchRequest_success_witness :
    createDispatchRequest ⟨"o", "r", "ci.yml", "main", []⟩ =
      .ok ("repos/" ++ "o" ++ "/" ++ "r" ++ "/actions/workflows/" ++
             "ci.yml" ++ "/dispatches",
           marshalObj (dispatchPayload ⟨"o", "r", "ci.yml", "main", []⟩)) ∧
    dispatchPayload ⟨"o", "r", "ci.yml", "main", []⟩ =
      [("ref", .str "main")] :=
  ⟨(createDispatchRequest_success ⟨"o", "r", "ci.yml", "main", []⟩
      (by decide) (by decide) (by decide) (by decide)).1,
   (createDispatchRequest_success ⟨"o", "r", "ci.yml", "main", []⟩
      (by decide) (by decide) (by decide) (by decide)).2.2.2.1 rfl⟩

theorem insertByKey_perm {α : Type} (p : String × α)
    (l : List (String × α)) : List.Perm (insertByKey p l) (p :: l) := by
  induction l with
  | nil => exact List.Perm.refl _
  | cons q qs ih =>
      by_cases h : p.1 ≤ q.1
      · rw [insertByKey, if_pos h]
      · rw [insertByKey, if_neg h]
        exact (ih.cons q).trans (List.Perm.swap p q qs)

theorem sortByKey_perm {α : Type} (l : List (String × α)) :
    List.Perm (sortByKey l) l := by
  induction l with
  | nil => exact List.Perm.refl _
  | cons p ps ih =>
      exact (insertByKey_perm p (sortByKey ps)).trans (ih.cons p)

theorem insertByKey_sorted {α : Type} (p : String × α)
    (l : List (String × α))
    (h : l.Pairwise fun a b => a.1 ≤ b.1) :
    (insertByKey p l).Pairwise fun a b => a.1 ≤ b.1 := by
  induction l with
  | nil => simp [insertByKey]
  | cons q qs ih =>
      by_cases hle : p.1 ≤ q.1
      · rw [insertByKey, if_pos hle]
        refine List.Pairwise.cons ?_ h
        intro x hx
        rcases List.mem_cons.mp hx with rfl | hx
        · exact hle
        · exact le_trans hle ((List.pairwise_cons.mp h).1 x hx)
      · rw [insertByKey, if_neg hle]
        refine List.Pairwise.cons ?_ (ih (List.pairwise_cons.mp h).2)
        intro x hx
        have hx' : x ∈ p :: qs := (insertByKey_perm p qs).subset hx
        rcases List.mem_cons.mp hx' with rfl | hx'
        · exact le_of_not_le hle
        · exact (List.pairwise_cons.mp h).1 x hx'

theorem sortByKey_sorted {α : Type} (l : List (String × α)) :
    (sortByKey l).Pairwise fun a b => a.1 ≤ b.1 := by
  induction l with
  | nil => simp [sortByKey]
  | cons p ps ih => exact insertByKey_sorted p (sortByKey ps) ih

theorem sorted_nodupKeys_perm_eq {α : Type} :
    ∀ {l1 l2 : List (String × α)}, List.Perm l1 l2 →
      (l1.Pairwise fun a b => a.1 ≤ b.1) →
      (l2.Pairwise fun a b => a.1 ≤ b.1) →
      (l1.map Prod.fst).Nodup → l1 = l2 := by
  intro l1
  induction l1 with
  | nil =>
      intro l2 hperm _ _ _
      exact (hperm.symm.eq_nil).symm
  | cons a t1 ih =>
      intro l2 hperm hs1 hs2 hnd
      cases l2 with
      | nil => exact absurd hperm.eq_nil (by simp)
      | cons b t2 =>
          have hnd' : a.1 ∉ List.map Prod.fst t1 ∧
              (List.map Prod.fst t1).Nodup := by
            rw [List.map_cons] at hnd
            exact List.nodup_cons.mp hnd
          have hab : a = b := by
            have ha2 : a ∈ b :: t2 := hperm.subset (List.mem_cons_self a t1)
            rcases List.mem_cons.mp ha2 with rfl | ha2
            · rfl
            · have hb1 : b ∈ a :: t1 :=
                hperm.symm.subset (List.mem_cons_self b t2)
              rcases List.mem_cons.mp hb1 with rfl | hb1
              · rfl
              · have h1 : a.1 ≤ b.1 := (List.pairwise_cons.mp hs1).1 b hb1
                have h2 : b.1 ≤ a.1 := (List.pairwise_cons.mp hs2).1 a ha2
                have hkey : a.1 = b.1 := le_antisymm h1 h2
                exact absurd (hkey ▸ List.mem_map_of_mem Prod.fst hb1)
                  hnd'.1
          subst hab
          have hperm' : List.Perm t1 t2 := hperm.cons_inv
          have := ih hperm' (List.pairwise_cons.mp hs1).2
            (List.pairwise_cons.mp hs2).2 hnd'.2
          rw [this]

theorem sortByKey_eq_of_perm {α : Type} {l1 l2 : List (String × α)}
    (h : List.Perm l1 l2) (hnd : (l1.map Prod.fst).Nodup) :
    sortByKey l1 = sortByKey l2 :=
  sorted_nodupKeys_perm_eq
    ((sortByKey_perm l1).trans (h.trans (sortByKey_perm l2).symm))
    (sortByKey_sorted l1) (sortByKey_sorted l2)
    (((sortByKey_perm l1).map Prod.fst).symm.nodup hnd)

/-- C7: `createDispatchRequest` is deterministic. Two parameter values
whose scalar fields are equal and whose `Inputs` Go maps hold the same
key-value pairs (embedded: the association lists are permutations of one
another, with the distinct keys every Go map has) produce the identical
endpoint string and the byte-identical serialized payload — `json.Marshal`
serializes map keys in sorted order, erasing any difference in map
iteration order. -/
theorem createDispatchRequest_deterministic (p1 p2 : DispatchParams)
    (hO : p1.Owner = p2.Owner) (hR : p1.Repo = p2.Repo)
    (hW : p1.WorkflowFile = p2.WorkflowFile) (hRef : p1.Ref = p2.Ref)
    (hperm : List.Perm p1.Inputs p2.Inputs)
    (hnd : (p1.Inputs.map Prod.fst).Nodup) :
    createDispatchRequest p1 = createDispatchRequest p2 := by
  have hsort : sortByKey p1.Inputs = sortByKey p2.Inputs :=
    sortByKey_eq_of_perm hperm hnd
  have hlen : p1.Inputs.length = p2.Inputs.length := hperm.length_eq
  have hpay : marshalObj (dispatchPayload p1)
      = marshalObj (dispatchPayload p2) := by
    unfold dispatchPayload
    rw [hRef, hlen]
    by_cases h0 : p2.Inputs.length > 0
    · rw [if_pos h0, if_pos h0]
      simp only [marshalObj, sortByKey, insertByKey]
      by_cases hc : ("ref" : String) ≤ "inputs"
      · simp only [if_pos hc]
        simp [marshalVal, hsort]
      · simp only [if_neg hc]
        simp [marshalVal, hsort]
    · rw [if_neg h0, if_neg h0]
  unfold createDispatchRequest
  rw [hO, hR, hW, hRef, hpay]

/-- Witness for C7: the same two-entry `Inputs` map presented in the two
possible iteration orders yields identical request values. -/
theorem createDispatchRequest_deterministic_witness :
    createDispatchRequest
        ⟨"o", "r", "w.yml", "main", [("a", "1"), ("b", "2")]⟩ =
      createDispatchRequest
        ⟨"o", "r", "w.yml", "main", [("b", "2"), ("a", "1")]⟩ :=
  createDispatchRequest_deterministic _ _ rfl rfl rfl rfl
    (List.Perm.swap ("b", "2") ("a", "1") [])
    (by decide)

/-- The status-bearing part of a Go `*http.Response`; `RunDispatch`
inspects only `StatusCode` (the body is closed unread). -/
structure HttpResponse where
  StatusCode : Int

/-- The injected transport capability, mirroring the Go interface
`workflow.RESTClient`: `Request(method, path, body)` returns a response
or a transport error (embedded as its `Error()` text). -/
def RESTClient : Type :=
  String → String → String → Except String HttpResponse

/-- `RunDispatch` embeds the Go function of the same name: build and
validate the request, POST it once through the injected client, and
accept exactly the 2xx status codes. -/
def RunDispatch (client : RESTClient) (params : DispatchParams) :
    Except String Unit :=
  match createDispatchRequest params with
  | .error e => .error e
  | .ok (endpoint, body) =>
      match client "POST" endpoint body with
      | .error e => .error ("failed to dispatch request: " ++ e)
      | .ok resp =>
          if resp.StatusCode < 200 ∨ resp.StatusCode ≥ 300 then
            .error ("unexpected status code: " ++ toString resp.StatusCode)
          else .ok ()

/-- C5: for parameters that pass validation, `RunDispatch` succeeds iff
the single transport call returns a status in 200–299 (whatever the
body); a transport-level error `e` fails with
"failed to dispatch request: {e}"; a status `c` outside 200–299 fails
with "unexpected status code: {c}". The outcome is a function of that
one call alone — two clients answering this call identically give the
identical outcome, so no retry or second request is ever attempted. -/
theorem RunDispatch_transport (p : DispatchParams) (ep bd : String)
    (client : RESTClient)
    (hreq : createDispatchRequest p = .ok (ep, bd)) :
    (∀ e, client "POST" ep bd = .error e →
      RunDispatch client p =
        .error ("failed to dispatch request: " ++ e)) ∧
    (∀ resp, client "POST" ep bd = .ok resp →
      ((RunDispatch client p = .ok () ↔
          200 ≤ resp.StatusCode ∧ resp.StatusCode < 300) ∧
       (resp.StatusCode < 200 ∨ 300 ≤ resp.StatusCode →
         RunDispatch client p =
           .error ("unexpected status code: " ++
             toString resp.StatusCode)))) ∧
    (∀ client2 : RESTClient, client "POST" ep bd = client2 "POST" ep bd →
      RunDispatch client p = RunDispatch client2 p) := by
  refine ⟨?_, ?_, ?_⟩
  · intro e he
    simp [RunDispatch, hreq, he]
  · intro resp hresp
    constructor
    · constructor
      · intro hok
        by_contra hc
        have hcond : resp.StatusCode < 200 ∨ resp.StatusCode ≥ 300 := by
          omega
        simp [RunDispatch, hreq, hresp, hcond] at hok
      · intro hin
        have hcond : ¬ (resp.StatusCode < 200 ∨ resp.StatusCode ≥ 300) := by
          omega
        simp [RunDispatch, hreq, hresp, hcond]
    · intro hout
      have hcond : resp.StatusCode < 200 ∨ resp.StatusCode ≥ 300 := by
        omega
      simp [RunDispatch, hreq, hresp, hcond]
  · intro client2 hsame
    simp [RunDispatch, hreq, ← hsame]

/-- Witness for C5: a 204 response is success, a 500 response fails with
the exact status-code message. -/
theorem RunDispatch_transport_witness :
    RunDispatch (fun _ _ _ => .ok ⟨204⟩)
        ⟨"o", "r", "ci.yml", "main", []⟩ = .ok () ∧
    RunDispatch (fun _ _ _ => .ok ⟨500⟩)
        ⟨"o", "r", "ci.yml", "main", []⟩ =
      .error ("unexpected status code: " ++ toString (500 : Int)) :=
  ⟨((RunDispatch_transport ⟨"o", "r", "ci.yml", "main", []⟩
        ("repos/" ++ "o" ++ "/" ++ "r" ++ "/actions/workflows/" ++
          "ci.yml" ++ "/dispatches")
        (marshalObj (dispatchPayload ⟨"o", "r", "ci.yml", "main", []⟩))
        (fun _ _ _ => .ok ⟨204⟩) rfl).2.1 ⟨204⟩ rfl).1.mpr
      (by constructor <;> decide),
   ((RunDispatch_transport ⟨"o", "r", "ci.yml", "main", []⟩
        ("repos/" ++ "o" ++ "/" ++ "r" ++ "/actions/workflows/" ++
          "ci.yml" ++ "/dispatches")
        (marshalObj (dispatchPayload ⟨"o", "r", "ci.yml", "main", []⟩))
        (fun _ _ _ => .ok ⟨500⟩) rfl).2.1 ⟨500⟩ rfl).2
      (Or.inr (by decide))⟩

/-- C6: when validation fails (some required field empty), `RunDispatch`
returns the validation error of `createDispatchRequest`, and its outcome
is independent of the injected client — no network request is issued. -/
theorem RunDispatch_validation_failure_no_call (p : DispatchParams)
    (client : RESTClient)
    (h : p.Owner = "" ∨ p.Repo = "" ∨ p.WorkflowFile = "" ∨ p.Ref = "") :
    (∃ e, createDispatchRequest p = .error e ∧
       RunDispatch client p = .error e) ∧
    (∀ client2 : RESTClient,
       RunDispatch client p = RunDispatch client2 p) := by
  have herr : ∃ e, createDispatchRequest p = .error e := by
    unfold createDispatchRequest
    by_cases h1 : p.Owner = "" ∨ p.Repo = ""
    · exact ⟨_, by rw [if_pos h1]⟩
    · by_cases h2 : p.WorkflowFile = ""
      · exact ⟨_, by rw [if_neg h1, if_pos h2]⟩
      · by_cases h3 : p.Ref = ""
        · exact ⟨_, by rw [if_neg h1, if_neg h2, if_pos h3]⟩
        · exfalso
          rcases h with h | h | h | h <;> tauto
  obtain ⟨e, he⟩ := herr
  constructor
  · exact ⟨e, he, by simp [RunDispatch, he]⟩
  · intro client2
    simp [RunDispatch, he]

/-- Witness for C6 at a concrete parameter value with an empty ref. -/
theorem RunDispatch_validation_failure_no_call_witness :
    (∃ e, createDispatchRequest ⟨"o", "r", "ci.yml", "", []⟩ = .error e ∧
       RunDispatch (fun _ _ _ => .ok ⟨204⟩)
         ⟨"o", "r", "ci.yml", "", []⟩ = .error e) ∧
    (∀ client2 : RESTClient,
       RunDispatch (fun _ _ _ => .ok ⟨204⟩)
         ⟨"o", "r", "ci.yml", "", []⟩ =
       RunDispatch client2 ⟨"o", "r", "ci.yml", "", []⟩) :=
  RunDispatch_validation_failure_no_call
    ⟨"o", "r", "ci.yml", "", []⟩ (fun _ _ _ => .ok ⟨204⟩)
    (Or.inr (Or.inr (Or.inr rfl)))

/-- `Workflow` mirrors the Go struct of the same name; the possibly-nil
`map[string]Input` field is embedded as an `Option`al association
list. -/
structure Workflow where
  Name : String
  Path : String
  FileName : String
  Inputs : Option (List (String × Input))

/-- One result of `os.ReadDir`: the entry name and its directory bit. -/
structure DirEntry where
  name : String
  isDir : Bool

/-- The two kinds of `os.ReadDir` failure the Go code distinguishes:
`os.IsNotExist(err)` versus any other error (carried as its text). -/
inductive ReadDirError where
  | notExist : ReadDirError
  | other : String → ReadDirError

/-- The filesystem and parser collaborators consumed by
`LoadDispatchableWorkflows`: `os.ReadDir`, `os.ReadFile` (a read failure
is `none`), and `yaml.Unmarshal` into a `workflowYAML` (a parse failure
is `none`). -/
structure Env where
  readDir : String → Except ReadDirError (List DirEntry)
  readFile : String → Option String
  parseWorkflow : String → Option WorkflowYAML

/-- `filepath.Ext` on a path without separators (directory-entry names
never contain one): the suffix starting at the final dot, empty when the
name has no dot. -/
def fileExt (name : String) : String :=
  if name.toList.contains '.' then
    String.mk
      ('.' :: (name.toList.reverse.takeWhile fun c => c ≠ '.').reverse)
  else ""

/-- `strings.ToLower(filepath.Ext(name))`, the extension test value of
the scan loop, lowercasing character by character (the extensions it is
compared against are ASCII). -/
def loweredExt (name : String) : String :=
  String.mk ((fileExt name).toList.map Char.toLower)

/-- `filepath.Join` on clean, separator-free components — the only way
this code calls it (directory-entry names contain no separator). -/
def joinPath (dir name : String) : String :=
  dir ++ "/" ++ name

/-- The body of the `for _, entry := range entries` loop of
`LoadDispatchableWorkflows`: `none` exactly when the loop `continue`s
over the entry (sub-directory, unrecognized extension, unreadable file,
unparsable file, or no `workflow_dispatch` trigger); `some` is the
appended `Workflow`. -/
def processEntry (env : Env) (workflowsDir : String) (entry : DirEntry) :
    Option Workflow :=
  if entry.isDir then none
  else if loweredExt entry.name ≠ ".yml" ∧ loweredExt entry.name ≠ ".yaml"
    then none
  else
    match env.readFile (joinPath workflowsDir entry.name) with
    | none => none
    | some content =>
        match env.parseWorkflow content with
        | none => none
        | some wf =>
            if (extractInputs wf.On).isSome || hasWorkflowDispatch wf.On
              then
                some { Name := if wf.Name = "" then entry.name else wf.Name
                       Path := joinPath (joinPath ".github" "workflows")
                                 entry.name
                       FileName := entry.name
                       Inputs := extractInputs wf.On }
            else none

/-- `LoadDispatchableWorkflows` embeds the Go function of the same name,
returning the Go pair `([]Workflow, error)` as a list plus an optional
error text. -/
def LoadDispatchableWorkflows (env : Env) (workflowsDir : String) :
    List Workflow × Option String :=
  match env.readDir workflowsDir with
  | .error .notExist =>
      ([], some ("directory " ++ workflowsDir ++ " not found"))
  | .error (.other e) => ([], some e)
  | .ok entries =>
      (entries.filterMap (processEntry env workflowsDir), none)

/-- An environment whose directory listing itself fails with an error
that is not `os.IsNotExist` (for example a permission error). -/
def permDeniedEnv : Env :=
  { readDir := fun _ => .error (.other "permission denied")
    readFile := fun _ => none
    parseWorkflow := fun _ => none }

/-- C8, counterexample: the directory-not-found error is not the only
failure the scan reports — a directory listing failing for another
reason (here a permission error) is propagated as-is, and is not the
NotFound-kind error naming the directory. -/
theorem load_reports_non_notfound_error :
    (LoadDispatchableWorkflows permDeniedEnv ".github/workflows").2 =
      some "permission denied" ∧
    "permission denied" ≠ "directory .github/workflows not found" :=
  ⟨rfl, by decide⟩

/-- C8, amended: when the scanned directory is absent the scan fails
with the NotFound error naming the directory and an empty catalog; any
other directory-listing failure is propagated verbatim (also with an
empty catalog); these listing failures are the only errors — once the
listing succeeds the scan reports no error whatever the directory
contents, and an entry whose file fails to read or to parse is silently
skipped. -/
theorem load_error_reporting (env : Env) (dir : String) :
    (env.readDir dir = .error .notExist →
      LoadDispatchableWorkflows env dir =
        ([], some ("directory " ++ dir ++ " not found"))) ∧
    (∀ e, env.readDir dir = .error (.other e) →
      LoadDispatchableWorkflows env dir = ([], some e)) ∧
    (∀ entries, env.readDir dir = .ok entries →
      (LoadDispatchableWorkflows env dir).2 = none) ∧
    (∀ entry, env.readFile (joinPath dir entry.name) = none →
      processEntry env dir entry = none) ∧
    (∀ entry content,
      env.readFile (joinPath dir entry.name) = some content →
      env.parseWorkflow content = none →
      processEntry env dir entry = none) := by
  refine ⟨?_, ?_, ?_, ?_, ?_⟩
  · intro h
    simp [LoadDispatchableWorkflows, h]
  · intro e h
    simp [LoadDispatchableWorkflows, h]
  · intro entries h
    simp [LoadDispatchableWorkflows, h]
  · intro entry h
    unfold processEntry
    split
    · rfl
    · split
      · rfl
      · rw [h]
  · intro entry content hread hparse
    unfold processEntry
    split
    · rfl
    · split
      · rfl
      · rw [hread]
        simp [hparse]

/-- An environment whose directory listing fails with `os.IsNotExist`. -/
def notFoundEnv : Env :=
  { readDir := fun _ => .error .notExist
    readFile := fun _ => none
    parseWorkflow := fun _ => none }

/-- Witness for the amended C8: an absent directory yields the NotFound
error naming the directory and the empty catalog. -/
theorem load_error_reporting_witness :
    LoadDispatchableWorkflows notFoundEnv "wfdir" =
      ([], some ("directory " ++ "wfdir" ++ " not found")) :=
  (load_error_reporting notFoundEnv "wfdir").1 rfl

theorem processEntry_spec (env : Env) (dir : String) (entry : DirEntry)
    (w : Workflow) (h : processEntry env dir entry = some w) :
    w.FileName = entry.name ∧ w.FileName ≠ "" ∧
    w.Path = joinPath (joinPath ".github" "workflows") entry.name ∧
    ∃ content wf,
      env.readFile (joinPath dir entry.name) = some content ∧
      env.parseWorkflow content = some wf ∧
      w.Name = (if wf.Name = "" then entry.name else wf.Name) ∧
      w.Inputs = extractInputs wf.On := by
  unfold processEntry at h
  split at h
  · exact Option.noConfusion h
  · split at h
    · exact Option.noConfusion h
    · rename_i hext
      have hne : entry.name ≠ "" := by
        intro h0
        rw [h0] at hext
        exact hext (by decide)
      cases hread : env.readFile (joinPath dir entry.name) with
      | none =>
          rw [hread] at h
          exact Option.noConfusion h
      | some content =>
          rw [hread] at h
          dsimp only at h
          cases hparse : env.parseWorkflow content with
          | none =>
              rw [hparse] at h
              exact Option.noConfusion h
          | some wf =>
              rw [hparse] at h
              dsimp only at h
              split at h
              · have hw := Option.some.inj h
                subst hw
                exact ⟨rfl, hne, rfl, content, wf, rfl, hparse, rfl, rfl⟩
              · exact Option.noConfusion h

/-- The environment of end-to-end scenario 1: a directory holding one
file `deploy.yml` whose parse yields no declared name and the bare
string trigger `workflow_dispatch`. -/
def deployEnv : Env :=
  { readDir := fun _ => .ok [{ name := "deploy.yml", isDir := false }]
    readFile := fun _ => some "on: workflow_dispatch\n"
    parseWorkflow := fun _ =>
      some { Name := "", On := .str "workflow_dispatch" } }

/-- The catalog entry scenario 1 produces. -/
def deployWorkflow : Workflow :=
  { Name := "deploy.yml"
    Path := ".github/workflows/deploy.yml"
    FileName := "deploy.yml"
    Inputs := none }

/-- C9: every emitted catalog entry has a non-empty `FileName` (the
file's base name, extension included), and its display name is the
parsed workflow's declared name when one is declared and the file name
otherwise; concretely, a `deploy.yml` with `on: workflow_dispatch` and
no name yields the entry named `deploy.yml` after its file, with an
empty (nil) input schema. -/
theorem catalog_entry_display :
    (∀ (env : Env) (dir : String) (w : Workflow),
        w ∈ (LoadDispatchableWorkflows env dir).1 →
        w.FileName ≠ "" ∧
        ∃ content wf,
          env.readFile (joinPath dir w.FileName) = some content ∧
          env.parseWorkflow content = some wf ∧
          w.Name = (if wf.Name = "" then w.FileName else wf.Name)) ∧
    LoadDispatchableWorkflows deployEnv ".github/workflows" =
      ([deployWorkflow], none) := by
  constructor
  · intro env dir w hw
    unfold LoadDispatchableWorkflows at hw
    cases hrd : env.readDir dir with
    | error err =>
        rw [hrd] at hw
        cases err <;> simp at hw
    | ok entries =>
        rw [hrd] at hw
        dsimp only at hw
        obtain ⟨entry, hentry, hpe⟩ := List.mem_filterMap.mp hw
        obtain ⟨hfn, hne, _, content, wf, hread, hparse, hname, _⟩ :=
          processEntry_spec env dir entry w hpe
        refine ⟨hne, content, wf, ?_, hparse, ?_⟩
        · rw [hfn]
          exact hread
        · rw [hfn]
          exact hname
  · rfl

/-- Witness for C9 at scenario 1's environment and entry. -/
theorem catalog_entry_display_witness :
    deployWorkflow.FileName ≠ "" ∧
    ∃ content wf,
      deployEnv.readFile
          (joinPath ".github/workflows" deployWorkflow.FileName) =
        some content ∧
      deployEnv.parseWorkflow content = some wf ∧
      deployWorkflow.Name =
        (if wf.Name = "" then deployWorkflow.FileName else wf.Name) :=
  catalog_entry_display.1 deployEnv ".github/workflows" deployWorkflow
    (List.Mem.head _)

/-- C10: every emitted catalog entry's `Path` is the fixed prefix
`.github/workflows` joined with the file's base name, for every scanned
directory — the directory argument never influences the displayed
relative path. -/
theorem catalog_entry_relativePath (env : Env) (dir : String)
    (w : Workflow) (hw : w ∈ (LoadDispatchableWorkflows env dir).1) :
    w.Path = joinPath (joinPath ".github" "workflows") w.FileName := by
  unfold LoadDispatchableWorkflows at hw
  cases hrd : env.readDir dir with
  | error err =>
      rw [hrd] at hw
      cases err <;> simp at hw
  | ok entries =>
      rw [hrd] at hw
      dsimp only at hw
      obtain ⟨entry, hentry, hpe⟩ := List.mem_filterMap.mp hw
      obtain ⟨hfn, _, hpath, _⟩ := processEntry_spec env dir entry w hpe
      rw [hfn]
      exact hpath

/-- Witness for C10: scanning from an unrelated directory still yields
the fixed `.github/workflows` relative path. -/
theorem catalog_entry_relativePath_witness :
    deployWorkflow.Path =
      joinPath (joinPath ".github" "workflows") deployWorkflow.FileName :=
  catalog_entry_relativePath deployEnv "/not/the/usual/location"
    deployWorkflow (List.Mem.head _)
